import Mathlib

/-!
Verification development for the `langchain-google-genai` provider package:
a shallow embedding of `src/utils/tools.ts` (tool-format normalisation and
tool-choice configuration) and `src/embeddings.ts` (the embeddings client),
with theorems settling the specification's testable properties.

JavaScript values are embedded as follows: strings become `String`, numbers
that only flow through unmodified become `Int`, optional fields become
`Option`, thrown exceptions become `Except`, and JSON-schema parameter
objects become a small inductive `JValue` type.  JavaScript truthiness on
strings (`""` is falsy) is modelled explicitly where the source relies on it.
-/

set_option autoImplicit false

namespace LCGoogleGenAI

/-- JSON-like values standing for JSON-schema parameter objects. -/
inductive JValue : Type where
  | null : JValue
  | bool (b : Bool) : JValue
  | num (n : Int) : JValue
  | str (s : String) : JValue
  | arr (items : List JValue) : JValue
  | obj (fields : List (String × JValue)) : JValue

mutual

/-- Modelled from the spec: `removeAdditionalProperties` from
`zod_to_genai_parameters.ts` (repository code outside the provided sources)
strips every `additionalProperties` key from a JSON-schema object, recursively,
"since the vendor schema dialect forbids it". -/
def removeAdditionalProperties : JValue → JValue
  | .obj fields => .obj (removeAdditionalPropertiesFields fields)
  | .arr items => .arr (removeAdditionalPropertiesList items)
  | v => v

/-- Helper for `removeAdditionalProperties` on object field lists. -/
def removeAdditionalPropertiesFields : List (String × JValue) → List (String × JValue)
  | [] => []
  | (k, v) :: rest =>
    if k = "additionalProperties" then removeAdditionalPropertiesFields rest
    else (k, removeAdditionalProperties v) :: removeAdditionalPropertiesFields rest

/-- Helper for `removeAdditionalProperties` on arrays. -/
def removeAdditionalPropertiesList : List JValue → List JValue
  | [] => []
  | v :: rest => removeAdditionalProperties v :: removeAdditionalPropertiesList rest

end

/-- Vendor function declaration: name, description, JSON-schema parameters
(`FunctionDeclaration` from `@google/genai`, as used by `tools.ts`). -/
structure FunctionDeclaration : Type where
  name : String
  description : Option String
  parameters : Option JValue

/-- Vendor-native tool (`Tool` from `@google/genai`): an optional
function-declarations group plus a stand-in `other` field for any
non-declaration capability (code execution, search, ...) the tool may carry.
The TypeScript `"functionDeclarations" in t` key-presence test corresponds to
`functionDeclarations.isSome`. -/
structure GenerativeAITool : Type where
  functionDeclarations : Option (List FunctionDeclaration)
  other : Option String

/-- OpenAI-style function payload (`tool.function` of a `ToolDefinition`). -/
structure OpenAIFunctionSpec : Type where
  name : String
  description : Option String
  parameters : Option JValue

/-- OpenAI-style tool definition (`type: "function"` plus the function). -/
structure ToolDefinition : Type where
  function : OpenAIFunctionSpec

/-- Framework-native (LangChain) structured tool, reduced to the fields its
conversion path consumes: name, description and a JSON-schema. -/
structure LangChainToolModel : Type where
  name : String
  description : Option String
  schema : Option JValue

/-- Modelled from the spec: `convertToGenerativeAITools` from `common.ts`
(repository code outside the provided sources) converts framework-native
tools "to the vendor's function-declaration shape (name, description,
JSON-schema parameters with any `additionalProperties` key stripped)",
returning a single grouped-declarations entry holding one declaration per
input tool. -/
def convertToGenerativeAITools (tools : List LangChainToolModel) :
    List GenerativeAITool :=
  [{ functionDeclarations :=
      some (tools.map (fun t =>
        { name := t.name
          description := t.description
          parameters := t.schema.map removeAdditionalProperties }))
     other := none }]

/-- Input to the normaliser (`GoogleGenerativeAIToolType`): the three shapes
the duck-typed classification in `processTools` distinguishes, as a tagged
union (`isLangChainTool` / `isOpenAITool` / fallthrough). -/
inductive GoogleGenerativeAIToolType : Type where
  | langchain (t : LangChainToolModel) : GoogleGenerativeAIToolType
  | openai (t : ToolDefinition) : GoogleGenerativeAIToolType
  | genai (t : GenerativeAITool) : GoogleGenerativeAIToolType

/-- Translation of `convertOpenAIToolToGenAI` (`tools.ts` lines 99-111): an
OpenAI-style tool becomes one native tool holding a single function
declaration with the tool's name, description and stripped parameters. -/
def convertOpenAIToolToGenAI (tool : ToolDefinition) : GenerativeAITool :=
  { functionDeclarations :=
      some [{ name := tool.function.name
              description := tool.function.description
              parameters := tool.function.parameters.map removeAdditionalProperties }]
    other := none }

/-- One step of the `tools.forEach` classification loop in `processTools`
(`tools.ts` lines 42-62).  The accumulator is the pair of the mutable
`functionDeclarationTools` and `genAITools` arrays; a JavaScript `throw`
becomes `Except.error` with the thrown message. -/
def processToolsStep
    (acc : List FunctionDeclaration × List GenerativeAITool)
    (tool : GoogleGenerativeAIToolType) :
    Except String (List FunctionDeclaration × List GenerativeAITool) :=
  match tool with
  | .langchain t =>
    match convertToGenerativeAITools [t] with
    | convertedTool :: _ =>
      match convertedTool.functionDeclarations with
      | some ds => .ok (acc.1 ++ ds, acc.2)
      | none => .ok acc
    | [] => .error "TypeError: cannot read functionDeclarations of undefined"
  | .openai t =>
    match (convertOpenAIToolToGenAI t).functionDeclarations with
    | some ds => .ok (acc.1 ++ ds, acc.2)
    | none => .error "Failed to convert OpenAI structured tool to GenerativeAI tool"
  | .genai t => .ok (acc.1, acc.2 ++ [t])

/-- Translation of the merge phase of `processTools` (`tools.ts` lines
64-96).  The `genAITools.find` / `genAITools.map` pair with the mutable
clearing of `functionDeclarationTools` becomes a fold whose state carries the
output built so far and the not-yet-consumed declaration list. -/
def mergeFunctionDeclarations
    (functionDeclarationTools : List FunctionDeclaration)
    (genAITools : List GenerativeAITool) : List GenerativeAITool :=
  if genAITools.any (fun t => t.functionDeclarations.isSome) then
    (genAITools.foldl
      (fun (st : List GenerativeAITool × List FunctionDeclaration) tool =>
        if 0 < st.2.length ∧ tool.functionDeclarations.isSome then
          (st.1 ++ [{ functionDeclarations :=
                        some (tool.functionDeclarations.getD [] ++ st.2)
                      other := none }],
           [])
        else (st.1 ++ [tool], st.2))
      ([], functionDeclarationTools)).1
  else
    genAITools ++
      (if 0 < functionDeclarationTools.length then
        [{ functionDeclarations := some functionDeclarationTools, other := none }]
      else [])

/-- Translation of `processTools` (`tools.ts` lines 38-97): classify and
convert each input, then merge the collected declarations into the native
tool list. -/
def processTools (tools : List GoogleGenerativeAIToolType) :
    Except String (List GenerativeAITool) :=
  (tools.foldlM processToolsStep ([], [])).map
    (fun acc => mergeFunctionDeclarations acc.1 acc.2)

/-- Tool-choice directive (`ToolChoice` from `@langchain/core`): either a
string or some truthy non-string value. -/
inductive ToolChoice : Type where
  | str (s : String) : ToolChoice
  | obj : ToolChoice
deriving DecidableEq, Repr

/-- FunctionCallingConfigMode from `@google/genai`. -/
inductive FunctionCallingConfigMode : Type where
  | MODE_UNSPECIFIED : FunctionCallingConfigMode
  | ANY : FunctionCallingConfigMode
  | AUTO : FunctionCallingConfigMode
  | NONE : FunctionCallingConfigMode
deriving DecidableEq, Repr

/-- FunctionCallingConfig from `@google/genai`. -/
structure FunctionCallingConfig : Type where
  mode : FunctionCallingConfigMode
  allowedFunctionNames : Option (List String)
deriving DecidableEq, Repr

/-- ToolConfig from `@google/genai`. -/
structure ToolConfig : Type where
  functionCallingConfig : FunctionCallingConfig
deriving DecidableEq, Repr

/-- Extra options of `convertToolsToGenAI` / `createToolConfig`. -/
structure ToolConversionExtra : Type where
  toolChoice : Option ToolChoice
  allowedFunctionNames : Option (List String)
deriving DecidableEq, Repr

/-- JavaScript truthiness of an optional tool-choice value: absent and the
empty string are falsy. -/
def toolChoiceTruthy : Option ToolChoice → Bool
  | none => false
  | some (.str s) => s ≠ ""
  | some .obj => true

/-- Whether the optional tool choice is a string in JavaScript terms
(`typeof toolChoice === "string"`; the empty string qualifies). -/
def toolChoiceIsString : Option ToolChoice → Bool
  | some (.str _) => true
  | _ => false

/-- The `["any", "auto", "none"].includes(toolChoice as string)` membership
test of `tools.ts` line 130 (false on non-string values). -/
def toolChoiceInModeMap : Option ToolChoice → Bool
  | some (.str s) => s = "any" || s = "auto" || s = "none"
  | _ => false

/-- The `modeMap` lookup of `createToolConfig` (`tools.ts` lines 124-128),
with the `?? MODE_UNSPECIFIED` fallback of line 134. -/
def modeMapLookup (s : String) : FunctionCallingConfigMode :=
  if s = "any" then .ANY
  else if s = "auto" then .AUTO
  else if s = "none" then .NONE
  else .MODE_UNSPECIFIED

/-- Translation of `createToolConfig` (`tools.ts` lines 113-154). -/
def createToolConfig
    (genAITools : List GenerativeAITool)
    (extra : Option ToolConversionExtra) : Option ToolConfig :=
  match extra with
  | none => none
  | some e =>
    if genAITools.length = 0 then none
    else
      let toolChoice := e.toolChoice
      let allowedFunctionNames := e.allowedFunctionNames
      if toolChoiceTruthy toolChoice && toolChoiceInModeMap toolChoice then
        some { functionCallingConfig :=
                { mode :=
                    match toolChoice with
                    | some (.str s) => modeMapLookup s
                    | _ => .MODE_UNSPECIFIED
                  allowedFunctionNames := allowedFunctionNames } }
      else if toolChoiceIsString toolChoice || allowedFunctionNames.isSome then
        some { functionCallingConfig :=
                { mode := .ANY
                  allowedFunctionNames :=
                    some (allowedFunctionNames.getD [] ++
                      (match toolChoice with
                        | some (.str s) => if s ≠ "" then [s] else []
                        | _ => [])) } }
      else none

/-- Result record of `convertToolsToGenAI`. -/
structure ConvertToolsResult : Type where
  tools : List GenerativeAITool
  toolConfig : Option ToolConfig

/-- Translation of `convertToolsToGenAI` (`tools.ts` lines 19-36). -/
def convertToolsToGenAI
    (tools : List GoogleGenerativeAIToolType)
    (extra : Option ToolConversionExtra) :
    Except String ConvertToolsResult :=
  (processTools tools).map
    (fun genAITools =>
      { tools := genAITools, toolConfig := createToolConfig genAITools extra })

/-- Declarations a single classified input contributes to the mutable
`functionDeclarationTools` accumulator of `processTools`. -/
def convertedDeclarations : GoogleGenerativeAIToolType → List FunctionDeclaration
  | .langchain t =>
    [{ name := t.name
       description := t.description
       parameters := t.schema.map removeAdditionalProperties }]
  | .openai t =>
    [{ name := t.function.name
       description := t.function.description
       parameters := t.function.parameters.map removeAdditionalProperties }]
  | .genai _ => []

/-- Native tools a single classified input contributes to the `genAITools`
accumulator of `processTools`. -/
def nativeContribution : GoogleGenerativeAIToolType → List GenerativeAITool
  | .genai t => [t]
  | _ => []

/-- Number of grouped function-declarations entries in a native tool list. -/
def groupedEntryCount (tools : List GenerativeAITool) : Nat :=
  tools.countP (fun t => t.functionDeclarations.isSome)

theorem except_ok_bind {ε α β : Type} (v : α) (f : α → Except ε β) :
    (Except.ok (ε := ε) v >>= f) = f v := rfl

theorem foldlM_processToolsStep (tools : List GoogleGenerativeAIToolType)
    (acc : List FunctionDeclaration × List GenerativeAITool) :
    tools.foldlM processToolsStep acc =
      .ok (acc.1 ++ tools.flatMap convertedDeclarations,
           acc.2 ++ tools.flatMap nativeContribution) := by
  induction tools generalizing acc with
  | nil =>
    simp only [List.foldlM_nil, List.flatMap_nil, List.append_nil]
    rfl
  | cons x rest ih =>
    cases x with
    | langchain t =>
      simp only [List.foldlM_cons, processToolsStep, convertToGenerativeAITools,
        except_ok_bind]
      rw [ih]
      simp [convertedDeclarations, nativeContribution]
    | openai t =>
      simp only [List.foldlM_cons, processToolsStep, convertOpenAIToolToGenAI,
        except_ok_bind]
      rw [ih]
      simp [convertedDeclarations, nativeContribution]
    | genai t =>
      simp only [List.foldlM_cons, processToolsStep, except_ok_bind]
      rw [ih]
      simp [convertedDeclarations, nativeContribution]

theorem processTools_eq (tools : List GoogleGenerativeAIToolType) :
    processTools tools =
      .ok (mergeFunctionDeclarations
            (tools.flatMap convertedDeclarations)
            (tools.flatMap nativeContribution)) := by
  unfold processTools
  rw [foldlM_processToolsStep]
  rfl

theorem mergeFunctionDeclarations_no_native
    (ds : List FunctionDeclaration) (h : ds ≠ []) :
    mergeFunctionDeclarations ds [] =
      [{ functionDeclarations := some ds, other := none }] := by
  unfold mergeFunctionDeclarations
  simp [List.length_pos, h]

/-- Folding the merge step over tools without a declarations group leaves the
state's declaration list untouched and appends the tools verbatim. -/
theorem mergeFold_skips_groupless
    (pre : List GenerativeAITool) (hpre : ∀ t ∈ pre, t.functionDeclarations = none)
    (out : List GenerativeAITool) (ds : List FunctionDeclaration) :
    pre.foldl
      (fun (st : List GenerativeAITool × List FunctionDeclaration) tool =>
        if 0 < st.2.length ∧ tool.functionDeclarations.isSome then
          (st.1 ++ [{ functionDeclarations :=
                        some (tool.functionDeclarations.getD [] ++ st.2)
                      other := none }],
           [])
        else (st.1 ++ [tool], st.2))
      (out, ds) = (out ++ pre, ds) := by
  induction pre generalizing out with
  | nil => simp
  | cons t rest ih =>
    have ht : t.functionDeclarations = none := hpre t (by simp)
    simp only [List.foldl_cons, ht]
    rw [if_neg (by simp)]
    rw [ih (fun u hu => hpre u (by simp [hu]))]
    simp

/-- Folding the merge step with an exhausted declaration list changes
nothing. -/
theorem mergeFold_after_consumed
    (post : List GenerativeAITool) (out : List GenerativeAITool) :
    post.foldl
      (fun (st : List GenerativeAITool × List FunctionDeclaration) tool =>
        if 0 < st.2.length ∧ tool.functionDeclarations.isSome then
          (st.1 ++ [{ functionDeclarations :=
                        some (tool.functionDeclarations.getD [] ++ st.2)
                      other := none }],
           [])
        else (st.1 ++ [tool], st.2))
      (out, []) = (out ++ post, []) := by
  induction post generalizing out with
  | nil => simp
  | cons t rest ih =>
    simp only [List.foldl_cons]
    rw [if_neg (by simp)]
    rw [ih]
    simp

theorem mergeFunctionDeclarations_first_group
    (ds gds : List FunctionDeclaration)
    (pre post : List GenerativeAITool) (g : GenerativeAITool)
    (hds : ds ≠ [])
    (hpre : ∀ t ∈ pre, t.functionDeclarations = none)
    (hg : g.functionDeclarations = some gds) :
    mergeFunctionDeclarations ds (pre ++ g :: post) =
      pre ++ { functionDeclarations := some (gds ++ ds), other := none } :: post := by
  unfold mergeFunctionDeclarations
  rw [if_pos]
  · rw [List.foldl_append, mergeFold_skips_groupless pre hpre [] ds]
    simp only [List.foldl_cons, hg]
    rw [if_pos (by simp [hg, List.length_pos, hds])]
    rw [mergeFold_after_consumed]
    simp [hg]
  · simp only [List.any_append, List.any_cons, hg]
    simp

/-- C2 (counterexample): the claim quantifies over every input list composed
only of framework-native tools, but for the empty list `processTools` returns
an empty output with zero grouped function-declarations entries, not exactly
one. -/
theorem c2_counterexample :
    ¬ (∀ ts : List LangChainToolModel,
        (processTools (ts.map .langchain)).map groupedEntryCount =
          .ok 1) := by
  intro h
  have h0 := h []
  rw [processTools_eq] at h0
  injection h0 with h1
  exact absurd h1 (by decide)

theorem flatMap_convertedDeclarations_langchain (ts : List LangChainToolModel) :
    (ts.map GoogleGenerativeAIToolType.langchain).flatMap
      convertedDeclarations =
      ts.map (fun t =>
        ({ name := t.name
           description := t.description
           parameters := t.schema.map removeAdditionalProperties } :
          FunctionDeclaration)) := by
  induction ts with
  | nil => rfl
  | cons t rest ih => simp [convertedDeclarations, ih]

theorem flatMap_nativeContribution_langchain (ts : List LangChainToolModel) :
    (ts.map GoogleGenerativeAIToolType.langchain).flatMap
      nativeContribution = [] := by
  rw [List.flatMap_eq_nil_iff]
  intro x hx
  obtain ⟨t, _, rfl⟩ := List.mem_map.mp hx
  rfl

/-- C2 (amended): for every non-empty input list composed only of
framework-native tools, `processTools` returns exactly one grouped
function-declarations entry, its declarations being the concatenation of each
input tool's converted declaration in input order. -/
theorem c2_langchain_only_single_group (ts : List LangChainToolModel)
    (h : ts ≠ []) :
    processTools (ts.map .langchain) =
      .ok [{ functionDeclarations :=
              some (ts.map (fun t =>
                { name := t.name
                  description := t.description
                  parameters := t.schema.map removeAdditionalProperties }))
             other := none }] := by
  rw [processTools_eq]
  rw [flatMap_convertedDeclarations_langchain,
    flatMap_nativeContribution_langchain, mergeFunctionDeclarations_no_native]
  intro hcon
  exact h (List.map_eq_nil_iff.mp hcon)

/-- C2 witness: a concrete single-tool instance of the amended theorem. -/
theorem c2_witness :
    processTools [.langchain ⟨"getWeather", some "Get the weather", none⟩] =
      .ok [{ functionDeclarations :=
              some [⟨"getWeather", some "Get the weather", none⟩]
             other := none }] :=
  c2_langchain_only_single_group
    [⟨"getWeather", some "Get the weather", none⟩] (by simp)

/-- C3: for an input list whose native tools are `pre ++ g :: post` with `g`
the first native tool carrying a function-declarations group, and which
contains at least one framework-native or OpenAI-style tool, all converted
declarations are appended after the existing declarations of `g`; no new
grouped entry is appended and any later groups are left unchanged. -/
theorem c3_merge_into_first_group
    (tools : List GoogleGenerativeAIToolType)
    (pre post : List GenerativeAITool) (g : GenerativeAITool)
    (gds : List FunctionDeclaration)
    (hnat : tools.flatMap nativeContribution = pre ++ g :: post)
    (hpre : ∀ t ∈ pre, t.functionDeclarations = none)
    (hg : g.functionDeclarations = some gds)
    (hmix : ∃ x ∈ tools, convertedDeclarations x ≠ []) :
    processTools tools =
      .ok (pre ++
        { functionDeclarations :=
            some (gds ++ tools.flatMap convertedDeclarations)
          other := none } :: post) := by
  rw [processTools_eq, hnat]
  refine congrArg Except.ok
    (mergeFunctionDeclarations_first_group _ gds pre post g ?_ hpre hg)
  intro hnil
  obtain ⟨x, hx, hne⟩ := hmix
  exact hne (List.flatMap_eq_nil_iff.mp hnil x hx)

/-- C3 witness: one pre-existing group plus one framework-native tool; the
converted declaration is merged into the pre-existing group. -/
theorem c3_witness :
    processTools
      [.genai ⟨some [⟨"g0", none, none⟩], none⟩,
       .langchain ⟨"f", none, none⟩] =
      .ok [{ functionDeclarations :=
              some [⟨"g0", none, none⟩, ⟨"f", none, none⟩]
             other := none }] :=
  c3_merge_into_first_group _ [] [] _ [⟨"g0", none, none⟩] rfl (by simp) rfl
    ⟨.langchain ⟨"f", none, none⟩, by simp, by simp [convertedDeclarations]⟩

/-- C4 (counterexample): the claim says every string tool-choice other than
"any"/"auto"/"none" ends up among the allowed function names, but the empty
string is falsy in JavaScript, so `createToolConfig` returns a forced ANY
config whose allowed names do not include it. -/
theorem c4_counterexample :
    createToolConfig [⟨none, none⟩] (some ⟨some (.str ""), none⟩) =
      some ⟨⟨.ANY, some []⟩⟩
    ∧ ("" ∈ ([] : List String) → False) := by
  constructor
  · rfl
  · simp

/-- C4 (amended): for a non-empty normalized tool list, tool-choice "any",
"auto" and "none" map to exactly the corresponding mode; any other non-empty
string produces a forced-selection ANY config whose allowed names are the
explicitly supplied names with that string appended. -/
theorem c4_tool_choice_modes
    (genAITools : List GenerativeAITool) (afn : Option (List String))
    (t : String)
    (hne : genAITools ≠ [])
    (ht₁ : t ≠ "any") (ht₂ : t ≠ "auto") (ht₃ : t ≠ "none") (ht₄ : t ≠ "") :
    createToolConfig genAITools (some ⟨some (.str "any"), afn⟩) =
        some ⟨⟨.ANY, afn⟩⟩
    ∧ createToolConfig genAITools (some ⟨some (.str "auto"), afn⟩) =
        some ⟨⟨.AUTO, afn⟩⟩
    ∧ createToolConfig genAITools (some ⟨some (.str "none"), afn⟩) =
        some ⟨⟨.NONE, afn⟩⟩
    ∧ createToolConfig genAITools (some ⟨some (.str t), afn⟩) =
        some ⟨⟨.ANY, some (afn.getD [] ++ [t])⟩⟩
    ∧ t ∈ afn.getD [] ++ [t] := by
  have hlen : ¬ genAITools.length = 0 := by
    simpa [List.length_eq_zero] using hne
  refine ⟨?_, ?_, ?_, ?_, ?_⟩
  · simp [createToolConfig, hlen, toolChoiceTruthy, toolChoiceInModeMap,
      modeMapLookup]
  · simp [createToolConfig, hlen, toolChoiceTruthy, toolChoiceInModeMap,
      modeMapLookup]
  · simp [createToolConfig, hlen, toolChoiceTruthy, toolChoiceInModeMap,
      modeMapLookup]
  · simp [createToolConfig, hlen, toolChoiceTruthy, toolChoiceInModeMap,
      toolChoiceIsString, ht₁, ht₂, ht₃, ht₄]
  · simp

/-- C4 witness: a concrete instance with one tool, one explicitly allowed
name and the forced function name "myFunc". -/
theorem c4_witness :
    createToolConfig [⟨none, none⟩]
        (some ⟨some (.str "any"), some ["allowed"]⟩) =
        some ⟨⟨.ANY, some ["allowed"]⟩⟩
    ∧ createToolConfig [⟨none, none⟩]
        (some ⟨some (.str "auto"), some ["allowed"]⟩) =
        some ⟨⟨.AUTO, some ["allowed"]⟩⟩
    ∧ createToolConfig [⟨none, none⟩]
        (some ⟨some (.str "none"), some ["allowed"]⟩) =
        some ⟨⟨.NONE, some ["allowed"]⟩⟩
    ∧ createToolConfig [⟨none, none⟩]
        (some ⟨some (.str "myFunc"), some ["allowed"]⟩) =
        some ⟨⟨.ANY, some ["allowed", "myFunc"]⟩⟩
    ∧ "myFunc" ∈ ["allowed", "myFunc"] :=
  c4_tool_choice_modes [⟨none, none⟩] (some ["allowed"]) "myFunc"
    (by simp) (by decide) (by decide) (by decide) (by decide)

/-- C5 (counterexample): a degenerate OpenAI-style tool (empty name, no
description, no parameters) is converted without any error, so tool
processing does not fail on malformed OpenAI-style shapes; moreover the only
conversion-failure branch carries a fixed message that names no tool. -/
theorem c5_counterexample :
    processTools [.openai ⟨⟨"", none, none⟩⟩] =
      .ok [{ functionDeclarations :=
              some [{ name := "", description := none, parameters := none }]
             other := none }] := by
  rw [processTools_eq]
  rfl

/-- C5 (amended): OpenAI-style tool conversion is total — it always yields
exactly one function declaration carrying the tool's name — hence
`processTools` never fails, and its conversion-failure branch (whose fixed
message does not name the offending tool) is unreachable. -/
theorem c5_conversion_total (t : ToolDefinition)
    (tools : List GoogleGenerativeAIToolType) :
    (convertOpenAIToolToGenAI t).functionDeclarations =
      some [{ name := t.function.name
              description := t.function.description
              parameters :=
                t.function.parameters.map removeAdditionalProperties }]
    ∧ ∃ r, processTools tools = .ok r := by
  refine ⟨rfl, ?_, ?_⟩
  · exact mergeFunctionDeclarations (tools.flatMap convertedDeclarations)
      (tools.flatMap nativeContribution)
  · exact processTools_eq tools

/-- C10: whenever the normalized tool list is empty or no extra options are
supplied, `convertToolsToGenAI` returns no tool config; a tool-choice
directive given with an empty tool list is silently dropped. -/
theorem c10_tool_config_dropped
    (tools : List GoogleGenerativeAIToolType)
    (extra : Option ToolConversionExtra)
    (res : ConvertToolsResult)
    (hok : convertToolsToGenAI tools extra = .ok res)
    (hcond : res.tools = [] ∨ extra = none) :
    res.toolConfig = none := by
  unfold convertToolsToGenAI at hok
  rw [processTools_eq] at hok
  injection hok with hok2
  subst hok2
  rcases hcond with h | h
  · have h' : mergeFunctionDeclarations (tools.flatMap convertedDeclarations)
        (tools.flatMap nativeContribution) = [] := h
    show createToolConfig _ extra = none
    rw [h']
    cases extra <;> simp [createToolConfig]
  · subst h
    rfl

/-- C10 witness: a tool-choice directive with an empty tool list yields a
result with no tool config. -/
theorem c10_witness :
    ({ tools := [], toolConfig := none } : ConvertToolsResult).toolConfig =
      none :=
  c10_tool_config_dropped [] (some ⟨some (.str "f"), none⟩)
    { tools := [], toolConfig := none } rfl (Or.inl rfl)

/-! ## Embeddings client (`embeddings.ts`) -/

/-- Embedding vectors; the numeric element type is irrelevant to the claims,
so vendor floats are embedded as integers. -/
abbrev Vec : Type := List Int

/-- JavaScript truthiness of an optional string field: absent and the empty
string are falsy. -/
def strTruthy : Option String → Bool
  | none => false
  | some s => s ≠ ""

/-- Constructor fields (`GoogleGenerativeAIEmbeddingsParams`). -/
structure EmbeddingsFields : Type where
  modelName : Option String
  model : Option String
  taskType : Option String
  title : Option String
  outputDimensionality : Option Int
  stripNewLines : Option Bool
  apiKey : Option String
  baseUrl : Option String
deriving DecidableEq, Repr

/-- The two synchronous constructor failures of
`GoogleGenerativeAIEmbeddings` (the thrown `Error`s of lines 132-146). -/
inductive ConstructError : Type where
  | titleRequiresRetrievalDocumentTaskType : ConstructError
  | missingApiKey : ConstructError
deriving DecidableEq, Repr

/-- Post-construction instance state of `GoogleGenerativeAIEmbeddings`.  The
class field `stripNewLines = true` is never reassigned by the constructor, so
it is always `true`; `maxBatchSize` is likewise the fixed class field 100. -/
structure EmbeddingsState : Type where
  apiKey : String
  modelName : String
  model : String
  taskType : Option String
  title : Option String
  outputDimensionality : Option Int
  stripNewLines : Bool
deriving DecidableEq, Repr

/-- The `replace(/^models\//, "")` normalisation of lines 121-122: remove one
leading `models/` from the configured model name. -/
def stripModelsHead (s : String) : String :=
  if s.data.take 7 = "models/".data then ⟨s.data.drop 7⟩ else s

/-- Translation of the `GoogleGenerativeAIEmbeddings` constructor
(`embeddings.ts` lines 117-152).  `env` is the `GOOGLE_API_KEY` environment
fallback; a thrown `Error` becomes `Except.error`.  No network call occurs:
the vendor client construction at line 148 stores configuration only. -/
def construct (fields : Option EmbeddingsFields) (env : Option String) :
    Except ConstructError EmbeddingsState :=
  let modelName :=
    match fields.bind (·.model) with
    | some m => stripModelsHead m
    | none =>
      match fields.bind (·.modelName) with
      | some m => stripModelsHead m
      | none => "embedding-001"
  let model := modelName
  let taskType := fields.bind (·.taskType)
  let title := fields.bind (·.title)
  let outputDimensionality := fields.bind (·.outputDimensionality)
  if strTruthy title = true ∧ taskType ≠ some "RETRIEVAL_DOCUMENT" then
    .error .titleRequiresRetrievalDocumentTaskType
  else
    let apiKey :=
      match fields.bind (·.apiKey) with
      | some k => some k
      | none => env
    match apiKey with
    | none => .error .missingApiKey
    | some k =>
      if k = "" then .error .missingApiKey
      else
        .ok { apiKey := k
              modelName := modelName
              model := model
              taskType := taskType
              title := title
              outputDimensionality := outputDimensionality
              stripNewLines := true }

/-- Character-level form of `text.replace(/\n/g, " ")`: the global
single-character regex replaces each newline occurrence with a space. -/
def replaceNewlinesChars : List Char → List Char
  | [] => []
  | c :: rest =>
    (if c = '\n' then ' ' else c) :: replaceNewlinesChars rest

/-- Translation of `_cleanText` (`embeddings.ts` lines 154-157). -/
def cleanText (stripNewLines : Bool) (text : String) : String :=
  if stripNewLines then ⟨replaceNewlinesChars text.data⟩ else text

/-- Vendor `EmbedContentConfig` restricted to the fields the client sets. -/
structure EmbedContentConfig : Type where
  taskType : Option String
  title : Option String
  outputDimensionality : Option Int
deriving DecidableEq, Repr

/-- Translation of `_embedConfig` (`embeddings.ts` lines 159-171): populate
only truthy / number-typed fields and return the config only when at least
one key was set. -/
def embedConfig (st : EmbeddingsState) : Option EmbedContentConfig :=
  let config : EmbedContentConfig :=
    { taskType := if strTruthy st.taskType then st.taskType else none
      title := if strTruthy st.title then st.title else none
      outputDimensionality := st.outputDimensionality }
  if config.taskType.isSome || config.title.isSome ||
      config.outputDimensionality.isSome then
    some config
  else none

/-- Argument object of a `client.models.embedContent` vendor call. -/
structure EmbedContentRequest : Type where
  model : String
  contents : List String
  config : Option EmbedContentConfig
deriving DecidableEq, Repr

/-- The request `_embedQueryContent` sends (`embeddings.ts` lines 174-178). -/
def embedQueryRequest (st : EmbeddingsState) (text : String) :
    EmbedContentRequest :=
  { model := st.model
    contents := [cleanText st.stripNewLines text]
    config := embedConfig st }

/-- One vendor embedding (`values` may be absent). -/
structure ContentEmbedding : Type where
  values : Option Vec
deriving DecidableEq, Repr

/-- Vendor response of `embedContent` (`embeddings` may be absent). -/
structure EmbedContentResponse : Type where
  embeddings : Option (List ContentEmbedding)
deriving DecidableEq, Repr

/-- Result handling of `_embedQueryContent` (`embeddings.ts` line 179):
`res.embeddings?.[0]?.values ?? []`. -/
def embedQueryResult (res : EmbedContentResponse) : Vec :=
  match res.embeddings with
  | some (e :: _) => e.values.getD []
  | _ => []

/-- The fixed class field `maxBatchSize = 100` (`embeddings.ts` line 113). -/
def maxBatchSize : Nat := 100

/-- Translation of `chunkArray` from `@langchain/core/utils/chunk_array`:
split a list into consecutive chunks of at most `chunkSize` elements.  (The
degenerate `chunkSize = 0` never occurs; the client always passes 100.) -/
def chunkArray {α : Type} : List α → Nat → List (List α)
  | [], _ => []
  | a :: rest, chunkSize =>
    if _h : chunkSize = 0 then []
    else
      (a :: rest).take chunkSize ::
        chunkArray ((a :: rest).drop chunkSize) chunkSize
termination_by arr _ => arr.length
decreasing_by
  simp only [List.length_drop, List.length_cons]
  omega

/-- The batch of requests `_embedDocumentsContent` issues (`embeddings.ts`
lines 185-197): one `embedContent` call per chunk, each with cleaned
contents and the shared config. -/
def embedDocumentsRequests (st : EmbeddingsState) (documents : List String) :
    List EmbedContentRequest :=
  (chunkArray documents maxBatchSize).map (fun chunk =>
    { model := st.model
      contents := chunk.map (cleanText st.stripNewLines)
      config := embedConfig st })

/-- Outcome of one settled vendor call (`Promise.allSettled` element). -/
inductive SettledResult : Type where
  | fulfilled (value : EmbedContentResponse) : SettledResult
  | rejected : SettledResult
deriving DecidableEq, Repr

/-- The settled-response combination of `_embedDocumentsContent`
(`embeddings.ts` lines 190-206), generalised over the chunk list: fulfilled
chunks contribute `res.value.embeddings?.map((e) => e.values || []) ?? []`,
rejected chunks contribute one empty vector per chunk item. -/
def chunkResults (chunks : List (List String))
    (outcome : Nat → SettledResult) : List Vec :=
  (((List.range chunks.length).map outcome).enum).flatMap (fun p =>
    match p.2 with
    | .fulfilled r =>
      (r.embeddings.map (fun es => es.map (fun e => e.values.getD []))).getD []
    | .rejected => List.replicate (chunks.getD p.1 []).length [])

/-- Translation of `_embedDocumentsContent` (`embeddings.ts` lines 182-209):
chunk the documents by the fixed batch size and combine the settled per-chunk
outcomes. -/
def embedDocumentsContent (documents : List String)
    (outcome : Nat → SettledResult) : List Vec :=
  chunkResults (chunkArray documents maxBatchSize) outcome

theorem construct_some (f : EmbeddingsFields) (env : Option String) :
    construct (some f) env =
      (if strTruthy f.title = true ∧ f.taskType ≠ some "RETRIEVAL_DOCUMENT" then
        .error .titleRequiresRetrievalDocumentTaskType
      else
        match (match f.apiKey with | some k => some k | none => env) with
        | none => .error .missingApiKey
        | some k =>
          if k = "" then .error .missingApiKey
          else
            .ok { apiKey := k
                  modelName :=
                    match f.model with
                    | some m => stripModelsHead m
                    | none =>
                      match f.modelName with
                      | some m => stripModelsHead m
                      | none => "embedding-001"
                  model :=
                    match f.model with
                    | some m => stripModelsHead m
                    | none =>
                      match f.modelName with
                      | some m => stripModelsHead m
                      | none => "embedding-001"
                  taskType := f.taskType
                  title := f.title
                  outputDimensionality := f.outputDimensionality
                  stripNewLines := true }) := rfl

/-- C6 (counterexample): a title that is "set" to the empty string with no
task type does not make construction fail — the empty string is falsy in
JavaScript, so the title guard is skipped and construction succeeds.  The
field tuples read (modelName, model, taskType, title, outputDimensionality,
stripNewLines, apiKey, baseUrl) and (apiKey, modelName, model, taskType,
title, outputDimensionality, stripNewLines). -/
theorem c6_counterexample :
    construct (some ⟨none, none, none, some "", none, none, some "k", none⟩)
        none =
      .ok ⟨"k", "embedding-001", "embedding-001", none, some "", none, true⟩ :=
  rfl

/-- C6 (amended): constructing with a NON-EMPTY title and a task type other
than RETRIEVAL_DOCUMENT (including no task type) throws the title error
synchronously; and when no non-empty credential is available from the apiKey
field or the environment fallback, construction throws as well.  `construct`
is pure, so both failures precede any network call. -/
theorem c6_construction_validation
    (f₁ f₂ : EmbeddingsFields) (env₁ env₂ : Option String) (t : String)
    (h₁t : f₁.title = some t) (h₁ne : t ≠ "")
    (h₁task : f₁.taskType ≠ some "RETRIEVAL_DOCUMENT")
    (h₂key : ∀ k, f₂.apiKey = some k → k = "")
    (h₂env : ∀ k, env₂ = some k → k = "") :
    construct (some f₁) env₁ = .error .titleRequiresRetrievalDocumentTaskType
    ∧ ∃ e, construct (some f₂) env₂ = .error e := by
  constructor
  · rw [construct_some]
    rw [if_pos ⟨by rw [h₁t]; simpa [strTruthy] using h₁ne, h₁task⟩]
  · by_cases hc : strTruthy f₂.title = true ∧
        f₂.taskType ≠ some "RETRIEVAL_DOCUMENT"
    · exact ⟨_, by rw [construct_some, if_pos hc]⟩
    · refine ⟨.missingApiKey, ?_⟩
      rw [construct_some, if_neg hc]
      rcases hk : f₂.apiKey with _ | k
      · rcases henv : env₂ with _ | k
        · simp [hk, henv]
        · have : k = "" := h₂env k henv
          subst this
          simp [hk, henv]
      · have : k = "" := h₂key k hk
        subst this
        simp [hk]

/-- C6 witness: concrete instances of both failure scenarios (field order as
in `c6_counterexample`). -/
theorem c6_witness :
    construct
        (some ⟨none, none, none, some "My Title", none, none, some "k", none⟩)
        none =
      .error .titleRequiresRetrievalDocumentTaskType
    ∧ ∃ e, construct
        (some ⟨none, none, none, none, none, none, none, none⟩) none =
      .error e :=
  c6_construction_validation
    ⟨none, none, none, some "My Title", none, none, some "k", none⟩
    ⟨none, none, none, none, none, none, none, none⟩
    none none "My Title" rfl (by decide) (by decide)
    (by intro k hk; cases hk) (by intro k hk; cases hk)

/-- C7: a configured output dimensionality appears verbatim in the config of
the vendor call; with output dimensionality, task type and title all unset,
the config is omitted altogether (no field is sent as null or zero). -/
theorem c7_embed_config
    (st st₂ : EmbeddingsState) (d : Int) (text : String)
    (hd : st.outputDimensionality = some d)
    (h₂task : st₂.taskType = none) (h₂title : st₂.title = none)
    (h₂dim : st₂.outputDimensionality = none) :
    ((embedQueryRequest st text).config.map (fun c => c.outputDimensionality)) =
      some (some d)
    ∧ (embedQueryRequest st₂ text).config = none := by
  constructor
  · simp [embedQueryRequest, embedConfig, hd]
  · simp [embedQueryRequest, embedConfig, h₂task, h₂title, h₂dim, strTruthy]

/-- C7 witness: `outputDimensionality: 128` is forwarded; a state with no
config fields sends no config (state field order as in
`c6_counterexample`). -/
theorem c7_witness :
    ((embedQueryRequest ⟨"k", "m", "m", none, none, some 128, true⟩
        "hello").config.map (fun c => c.outputDimensionality)) =
      some (some 128)
    ∧ (embedQueryRequest ⟨"k", "m", "m", none, none, none, true⟩
        "hello").config = none :=
  c7_embed_config
    ⟨"k", "m", "m", none, none, some 128, true⟩
    ⟨"k", "m", "m", none, none, none, true⟩
    128 "hello" rfl rfl rfl rfl

/-- Spec-side reading of the strip-newlines normalisation: replace every
newline character of the input with a space. -/
def stripNewlinesSpec (text : String) : String :=
  ⟨text.data.map (fun c => if c = '\n' then ' ' else c)⟩

theorem replaceNewlinesChars_eq_map (l : List Char) :
    replaceNewlinesChars l = l.map (fun c => if c = '\n' then ' ' else c) := by
  induction l with
  | nil => rfl
  | cons c rest ih => simp [replaceNewlinesChars, ih]

/-- C8: with strip-newlines enabled the single-query path sends the input
with every newline replaced by a space, and returns the first vector of the
vendor response, or an empty vector when the response has no embeddings. -/
theorem c8_query_normalisation
    (st : EmbeddingsState) (text : String)
    (res₁ res₂ : EmbedContentResponse) (e : ContentEmbedding)
    (rest : List ContentEmbedding) (v : Vec)
    (hstrip : st.stripNewLines = true)
    (h₁ : res₁.embeddings = some (e :: rest)) (hv : e.values = some v)
    (h₂ : res₂.embeddings = none ∨ res₂.embeddings = some []) :
    (embedQueryRequest st text).contents = [stripNewlinesSpec text]
    ∧ embedQueryResult res₁ = v
    ∧ embedQueryResult res₂ = [] := by
  refine ⟨?_, ?_, ?_⟩
  · simp [embedQueryRequest, cleanText, hstrip, stripNewlinesSpec,
      replaceNewlinesChars_eq_map]
  · simp [embedQueryResult, h₁, hv]
  · rcases h₂ with h | h <;> simp [embedQueryResult, h]

/-- C8 witness: `embedQuery("a\nb")` sends `"a b"`; a response with one
vector returns that vector; a response without embeddings returns `[]`. -/
theorem c8_witness :
    (embedQueryRequest
      ⟨"k", "embedding-001", "embedding-001", none, none, none, true⟩
      "a\nb").contents = ["a b"]
    ∧ embedQueryResult ⟨some [⟨some [1, 2]⟩]⟩ = [1, 2]
    ∧ embedQueryResult ⟨none⟩ = [] :=
  c8_query_normalisation
    ⟨"k", "embedding-001", "embedding-001", none, none, none, true⟩
    "a\nb" ⟨some [⟨some [1, 2]⟩]⟩ ⟨none⟩ ⟨some [1, 2]⟩ [] [1, 2]
    rfl rfl rfl (Or.inl rfl)

/-- C9 (counterexample): a model name configured as
"models/embedding-001" is NOT passed through unmodified — the constructor
strips the leading "models/", and the vendor call sends the stripped name. -/
theorem c9_counterexample :
    construct
        (some ⟨none, some "models/embedding-001", none, none, none, none,
          some "k", none⟩) none =
      .ok ⟨"k", "embedding-001", "embedding-001", none, none, none, true⟩
    ∧ (embedQueryRequest
        ⟨"k", "embedding-001", "embedding-001", none, none, none, true⟩
        "t").model = "embedding-001"
    ∧ "embedding-001" ≠ "models/embedding-001" :=
  ⟨rfl, rfl, by decide⟩

/-- C9 (amended): configuration is passed through to the vendor call with
exactly one normalisation — a leading "models/" is stripped from the model
name; a non-empty task type and a numeric output dimensionality reach the
call's config verbatim. -/
theorem c9_config_passthrough
    (f : EmbeddingsFields) (env : Option String) (st : EmbeddingsState)
    (m tt : String) (d : Int) (text : String)
    (hok : construct (some f) env = .ok st)
    (hm : f.model = some m)
    (ht : f.taskType = some tt) (htt : tt ≠ "")
    (hd : f.outputDimensionality = some d) :
    (embedQueryRequest st text).model = stripModelsHead m
    ∧ ((embedQueryRequest st text).config.map
        (fun c => (c.taskType, c.outputDimensionality))) =
      some (some tt, some d) := by
  rw [construct_some] at hok
  split at hok
  · cases hok
  · split at hok
    · cases hok
    · split at hok
      · cases hok
      · injection hok with hst
        subst hst
        rw [hm, ht, hd]
        constructor
        · rfl
        · simp [embedQueryRequest, embedConfig, strTruthy, htt]

/-- C9 witness: a concrete construction with model "models/custom-model",
task type RETRIEVAL_QUERY and output dimensionality 64. -/
theorem c9_witness :
    (embedQueryRequest
      ⟨"k", "custom-model", "custom-model", some "RETRIEVAL_QUERY", none,
        some 64, true⟩ "t").model = stripModelsHead "models/custom-model"
    ∧ ((embedQueryRequest
        ⟨"k", "custom-model", "custom-model", some "RETRIEVAL_QUERY", none,
          some 64, true⟩
        "t").config.map (fun c => (c.taskType, c.outputDimensionality))) =
      some (some "RETRIEVAL_QUERY", some 64) :=
  c9_config_passthrough
    ⟨none, some "models/custom-model", some "RETRIEVAL_QUERY", none, some 64,
      none, some "k", none⟩
    none
    ⟨"k", "custom-model", "custom-model", some "RETRIEVAL_QUERY", none,
      some 64, true⟩
    "models/custom-model" "RETRIEVAL_QUERY" 64 "t"
    rfl rfl rfl (by decide) rfl

/-! ## Batch embedding alignment (claim C1) -/

theorem chunkArray_nil {α : Type} (size : Nat) :
    chunkArray ([] : List α) size = [] := by
  simp [chunkArray]

theorem chunkArray_cons {α : Type} (a : α) (rest : List α) (size : Nat)
    (h : size ≠ 0) :
    chunkArray (a :: rest) size =
      (a :: rest).take size :: chunkArray ((a :: rest).drop size) size := by
  rw [chunkArray]
  simp [h]

/-- Per-chunk contribution of the settled-response combination, indexed by
chunk position. -/
def chunkContribution (chunks : List (List String))
    (outcome : Nat → SettledResult) (i : Nat) : List Vec :=
  match outcome i with
  | .fulfilled r =>
    (r.embeddings.map (fun es => es.map (fun e => e.values.getD []))).getD []
  | .rejected => List.replicate (chunks.getD i []).length []

theorem zip_self_map {α β : Type} (l : List α) (f : α → β) :
    l.zip (l.map f) = l.map (fun a => (a, f a)) := by
  induction l with
  | nil => rfl
  | cons a t ih => simp [ih]

theorem chunkResults_range (chunks : List (List String))
    (outcome : Nat → SettledResult) :
    chunkResults chunks outcome =
      (List.range chunks.length).flatMap
        (chunkContribution chunks outcome) := by
  unfold chunkResults
  rw [List.enum_eq_zip_range, List.length_map, List.length_range,
    zip_self_map, List.flatMap_map]
  rfl

theorem chunkContribution_succ (ch : List String)
    (rest : List (List String)) (outcome : Nat → SettledResult) (i : Nat) :
    chunkContribution (ch :: rest) outcome (i + 1) =
      chunkContribution rest (fun j => outcome (j + 1)) i := by
  unfold chunkContribution
  rw [List.getD_cons_succ]

theorem chunkResults_cons (ch : List String) (rest : List (List String))
    (outcome : Nat → SettledResult) :
    chunkResults (ch :: rest) outcome =
      chunkContribution (ch :: rest) outcome 0 ++
        chunkResults rest (fun i => outcome (i + 1)) := by
  rw [chunkResults_range, chunkResults_range, List.length_cons,
    List.range_succ_eq_map, List.flatMap_cons, List.flatMap_map]
  congr 1

theorem range_map_getD {α β : Type} (l : List α) (d : α) (g : α → β) :
    (List.range l.length).map (fun i => g (l.getD i d)) = l.map g := by
  induction l with
  | nil => rfl
  | cons a t ih =>
    rw [List.length_cons, List.range_succ_eq_map, List.map_cons, List.map_map]
    refine congrArg₂ List.cons rfl ?_
    rw [← ih]
    apply List.map_congr_left
    intro i _
    simp [List.getD_cons_succ]

theorem chunkContribution_zero_expand (chunks : List (List String))
    (outcome : Nat → SettledResult) (ch : List String)
    (hch : chunks.getD 0 [] = ch)
    (hwf0 : ∀ r, outcome 0 = .fulfilled r →
      ∃ es, r.embeddings = some es ∧ es.length = ch.length) :
    chunkContribution chunks outcome 0 =
      (List.range ch.length).map (fun i =>
        match outcome 0 with
        | .rejected => []
        | .fulfilled r =>
          ((r.embeddings.getD []).getD i ⟨none⟩).values.getD []) := by
  cases houtcome : outcome 0 with
  | rejected =>
    unfold chunkContribution
    rw [houtcome, hch]
    simp [houtcome, List.map_const']
  | fulfilled r =>
    obtain ⟨es, hes, hlen⟩ := hwf0 r houtcome
    unfold chunkContribution
    rw [houtcome]
    simp only [houtcome, hes, Option.map_some', Option.getD_some]
    rw [← hlen]
    exact (range_map_getD es ⟨none⟩ (fun e => e.values.getD [])).symm

/-- Well-formed settled outcomes: every fulfilled chunk response carries an
embeddings list with exactly one entry per item of its chunk (the vendor
contract for a successful batched call). -/
def WellFormedOutcomes (chunks : List (List String))
    (outcome : Nat → SettledResult) : Prop :=
  ∀ i, i < chunks.length → ∀ r, outcome i = .fulfilled r →
    ∃ es, r.embeddings = some es ∧ es.length = (chunks.getD i []).length

/-- Spec-side description of the batch result, following the claim's words:
output position `i` corresponds to input position `i`; a position in a
rejected chunk holds an empty vector, and a position in a fulfilled chunk
holds the vector the vendor returned for that position (or an empty vector
when that entry carries no values). -/
def expectedEmbedDocuments (documents : List String)
    (outcome : Nat → SettledResult) : List Vec :=
  (List.range documents.length).map (fun i =>
    match outcome (i / maxBatchSize) with
    | .rejected => []
    | .fulfilled r =>
      ((r.embeddings.getD []).getD (i % maxBatchSize) ⟨none⟩).values.getD [])

theorem embedDocumentsContent_expected (N : Nat) :
    ∀ (docs : List String) (outcome : Nat → SettledResult),
      docs.length ≤ N →
      WellFormedOutcomes (chunkArray docs maxBatchSize) outcome →
      embedDocumentsContent docs outcome =
        expectedEmbedDocuments docs outcome := by
  have hpos : 0 < maxBatchSize := by decide
  induction N with
  | zero =>
    intro docs outcome hlen _
    have hnil : docs = [] := List.eq_nil_of_length_eq_zero (Nat.le_zero.mp hlen)
    subst hnil
    show chunkResults (chunkArray [] maxBatchSize) outcome = _
    rw [chunkArray_nil]
    rfl
  | succ N ih =>
    intro docs outcome hlen hwf
    cases docs with
    | nil =>
      show chunkResults (chunkArray [] maxBatchSize) outcome = _
      rw [chunkArray_nil]
      rfl
    | cons a rest =>
      have hchunk := chunkArray_cons a rest maxBatchSize
        (Nat.pos_iff_ne_zero.mp hpos)
      show chunkResults (chunkArray (a :: rest) maxBatchSize) outcome = _
      rw [hchunk, chunkResults_cons]
      have hwf0 : ∀ r, outcome 0 = .fulfilled r →
          ∃ es, r.embeddings = some es ∧
            es.length = ((a :: rest).take maxBatchSize).length := by
        intro r hr
        have h0 := hwf 0 (by rw [hchunk]; simp) r hr
        rwa [hchunk, List.getD_cons_zero] at h0
      rw [chunkContribution_zero_expand _ outcome _ List.getD_cons_zero hwf0]
      have hwfs : WellFormedOutcomes
          (chunkArray ((a :: rest).drop maxBatchSize) maxBatchSize)
          (fun j => outcome (j + 1)) := by
        intro i hi r hr
        have h2 := hwf (i + 1)
          (by rw [hchunk]; simpa using Nat.succ_lt_succ hi) r hr
        rwa [hchunk, List.getD_cons_succ] at h2
      have htlen : ((a :: rest).drop maxBatchSize).length ≤ N := by
        rw [List.length_drop]
        have h3 : (a :: rest).length ≤ N + 1 := hlen
        omega
      rw [show chunkResults
            (chunkArray ((a :: rest).drop maxBatchSize) maxBatchSize)
            (fun i => outcome (i + 1)) =
          expectedEmbedDocuments ((a :: rest).drop maxBatchSize)
            (fun i => outcome (i + 1)) from
        ih ((a :: rest).drop maxBatchSize) (fun i => outcome (i + 1))
          htlen hwfs]
      by_cases hle : (a :: rest).length ≤ maxBatchSize
      · have hdrop : (a :: rest).drop maxBatchSize = [] :=
          List.drop_eq_nil_of_le hle
        have htake : (a :: rest).take maxBatchSize = a :: rest :=
          List.take_of_length_le hle
        rw [hdrop, htake]
        show _ ++ ([] : List Vec) = _
        rw [List.append_nil]
        unfold expectedEmbedDocuments
        apply List.map_congr_left
        intro i hi
        have hilt := List.mem_range.mp hi
        have hiM : i < maxBatchSize := Nat.lt_of_lt_of_le hilt hle
        rw [Nat.div_eq_of_lt hiM, Nat.mod_eq_of_lt hiM]
      · have hgt : maxBatchSize < (a :: rest).length := Nat.lt_of_not_le hle
        have htake_len : ((a :: rest).take maxBatchSize).length =
            maxBatchSize := by
          rw [List.length_take]
          exact Nat.min_eq_left (Nat.le_of_lt hgt)
        have hsplit : (a :: rest).length =
            maxBatchSize + ((a :: rest).length - maxBatchSize) := by omega
        conv_rhs =>
          unfold expectedEmbedDocuments
          rw [hsplit, List.range_add, List.map_append, List.map_map]
        congr 1
        · rw [htake_len]
          apply List.map_congr_left
          intro i hi
          have hiM := List.mem_range.mp hi
          rw [Nat.div_eq_of_lt hiM, Nat.mod_eq_of_lt hiM]
        · unfold expectedEmbedDocuments
          rw [List.length_drop]
          apply List.map_congr_left
          intro j _
          simp only [Function.comp]
          rw [Nat.add_comm maxBatchSize j, Nat.add_div_right j hpos,
            Nat.add_mod_right]

/-- C1 (amended): for every input list and every fulfilled-or-rejected
per-chunk outcome in which each FULFILLED response carries exactly one
embedding per item of its chunk, `_embedDocumentsContent` returns the
per-index aligned result: output length equals input length, a position in a
rejected chunk holds an empty vector (not a removed index), and a position
in a fulfilled chunk holds the vendor's vector for that position, in input
order. -/
theorem c1_batch_alignment (documents : List String)
    (outcome : Nat → SettledResult)
    (hwf : WellFormedOutcomes (chunkArray documents maxBatchSize) outcome) :
    embedDocumentsContent documents outcome =
      expectedEmbedDocuments documents outcome
    ∧ (embedDocumentsContent documents outcome).length = documents.length := by
  have h := embedDocumentsContent_expected documents.length documents outcome
    le_rfl hwf
  refine ⟨h, ?_⟩
  rw [h]
  unfold expectedEmbedDocuments
  rw [List.length_map, List.length_range]

/-- C1 (counterexample): a chunk call that FULFILLS with a response carrying
no embeddings list contributes nothing, so the output list is shorter than
the input — the claim's unconditional length guarantee fails for such a
fulfilled outcome. -/
theorem c1_counterexample :
    embedDocumentsContent ["a"] (fun _ => .fulfilled ⟨none⟩) = []
    ∧ (["a"] : List String).length = 1 := by
  constructor
  · show chunkResults (chunkArray ["a"] maxBatchSize) _ = []
    rw [show chunkArray ["a"] maxBatchSize = [["a"]] from by
      simp [chunkArray, maxBatchSize]]
    rfl
  · rfl

/-- C1 witness: two documents in one chunk, fulfilled with one embedding per
item (the second without values); the output is aligned and has length 2. -/
theorem c1_witness :
    embedDocumentsContent ["a", "b"]
        (fun _ => .fulfilled ⟨some [⟨some [1]⟩, ⟨none⟩]⟩) =
      expectedEmbedDocuments ["a", "b"]
        (fun _ => .fulfilled ⟨some [⟨some [1]⟩, ⟨none⟩]⟩)
    ∧ (embedDocumentsContent ["a", "b"]
        (fun _ => .fulfilled ⟨some [⟨some [1]⟩, ⟨none⟩]⟩)).length = 2 :=
  c1_batch_alignment ["a", "b"]
    (fun _ => .fulfilled ⟨some [⟨some [1]⟩, ⟨none⟩]⟩)
    (by
      intro i hi r hr
      injection hr with h
      subst h
      refine ⟨[⟨some [1]⟩, ⟨none⟩], rfl, ?_⟩
      have hc : chunkArray ["a", "b"] maxBatchSize = [["a", "b"]] := by
        simp [chunkArray, maxBatchSize]
      rw [hc] at hi ⊢
      have h0 : i = 0 := by
        simp at hi
        omega
      subst h0
      rfl)

end LCGoogleGenAI
